import Mathlib

/-!
Verification of the content-scheduling core of the chaishorts CMS.

The data model (Program / Term / Lesson / Asset) and the operations below are
shallow embeddings of the TypeScript / SQL source:

* `processScheduled` embeds `Database.processScheduled` from `src/store.ts`
  (the localStorage-backed store, lines 508-531): one publish cycle that maps
  every due scheduled lesson to `published` and then cascades the `published`
  status to parent programs.
* `runWorker` embeds the pg-backed background worker of the express server
  (`src/unnamed/part_001`, lines 79-142): the `workerRunning` guard, the
  `BEGIN`/`COMMIT`/`ROLLBACK` transaction (modelled as a working state that
  replaces the durable state only on commit), the bulk `UPDATE lessons ...
  RETURNING` statement and the per-lesson program cascade loop, with the
  `catch`/`finally` blocks that swallow the error and release the guard.
* `serverRunWorker` embeds the background worker of `src/server.js` (lines
  79-120), which — unlike part_001 — has no `workerRunning` guard.
* `catalogMatches` / `listPublishedCatalog` embed the `WHERE` clause, the
  `ORDER BY`, the `LIMIT`/`OFFSET` pagination and the count query of the
  `GET /catalog/programs` endpoint (`src/server.js`, lines 127-189); the
  count query is issued without the topic condition, as in every source
  variant of the endpoint.
* `upsertAsset` embeds `Database.upsertAsset` from `src/store.ts` lines
  493-506 (findIndex on the four-field key, replace keeping the stored id,
  otherwise push), rendered as structural recursion over the asset list.
* `updateLesson` / `autoPublishProgram` / `updateProgram` embed the
  corresponding methods of the store in `src/unnamed/part_002` (lines
  328-345, 403-421, 271-281); a thrown `Error` becomes `Except.error`.

Timestamps are abstracted to `Int`; every call of `new Date()` /
`CURRENT_TIMESTAMP` / `clock_timestamp()` inside one cycle is modelled as the
cycle's single reference instant `now` (the spec accepts sub-cycle clock
imprecision, so a cycle is modelled as executing at one instant).
-/

/-- Status values stored in the `status` string column of programs and
lessons (`src/types`): `draft`, `scheduled`, `published`, `archived`. -/
inductive Status where
  | draft
  | scheduled
  | published
  | archived
deriving DecidableEq, Repr

instance : BEq Status := ⟨fun a b => decide (a = b)⟩

@[simp] theorem Status.beq_iff (a b : Status) : (a == b) = true ↔ a = b := by
  simp [BEq.beq]

/-- Program row (`programs` table / `Program` interface). -/
structure Program where
  id : String
  title : String
  language_primary : String
  languages_available : List String
  status : Status
  topic_ids : List String
  published_at : Option Int
  created_at : Int
  updated_at : Int
deriving DecidableEq, Repr

/-- Term row (`terms` table / `Term` interface). -/
structure Term where
  id : String
  program_id : String
  term_number : Nat
  title : String
deriving DecidableEq, Repr

/-- Lesson row (`lessons` table / `Lesson` interface); `publish_at` is the
scheduled release instant, `published_at` the actual one. -/
structure Lesson where
  id : String
  term_id : String
  lesson_number : Nat
  title : String
  status : Status
  publish_at : Option Int
  published_at : Option Int
  updated_at : Int
deriving DecidableEq, Repr

/-- Asset row (`assets` table / `Asset` interface). -/
structure Asset where
  id : String
  parent_id : String
  language : String
  variant : String
  asset_type : String
  url : String
deriving DecidableEq, Repr

/-- The content store: the four entity collections the publish core touches
(the in-memory arrays of the `Database` class / the SQL tables). -/
structure Store where
  programs : List Program
  terms : List Term
  lessons : List Lesson
  assets : List Asset
deriving DecidableEq, Repr

/-! ## The publish cycle of `src/store.ts` (`processScheduled`, lines 508-531) -/

/-- The selection predicate of the cycle:
`l.status === Status.SCHEDULED && l.publish_at && new Date(l.publish_at) <= now`
(also the `WHERE` clause of the workers' bulk update:
`status = 'scheduled' AND publish_at IS NOT NULL AND publish_at <= now`). -/
def lessonDue (now : Int) (l : Lesson) : Bool :=
  l.status == Status.scheduled &&
    (match l.publish_at with
     | some t => decide (t ≤ now)
     | none => false)

/-- The per-lesson body of the `map` in `processScheduled` (store.ts 512-516):
a due scheduled lesson becomes
`{ ...l, status: PUBLISHED, published_at: new Date().toISOString() }`
(note: `published_at` is assigned unconditionally), all others are returned
unchanged. -/
def lessonStep (now : Int) (l : Lesson) : Lesson :=
  if lessonDue now l then
    { l with status := Status.published, published_at := some now }
  else l

/-- The expression `this.terms.filter(t => t.program_id === p.id).map(t => t.id)`
(store.ts 521). -/
def programTermIds (terms : List Term) (programId : String) : List String :=
  (terms.filter (fun t => t.program_id == programId)).map (fun t => t.id)

/-- The expression `this.lessons.some(l => pTerms.includes(l.term_id) && l.status === PUBLISHED)`
(store.ts 522): the re-checked cascade precondition. -/
def programHasPublished (terms : List Term) (lessons : List Lesson) (p : Program) : Bool :=
  lessons.any (fun l => (programTermIds terms p.id).contains l.term_id &&
    l.status == Status.published)

/-- The per-program body of the cascade `forEach` (store.ts 520-527): a
program with a published lesson and a status other than `published` is set to
`published`, and its `published_at` is set to `now` only when it was unset. -/
def programStep (terms : List Term) (lessons : List Lesson) (now : Int) (p : Program) : Program :=
  if programHasPublished terms lessons p && !(p.status == Status.published) then
    { p with status := Status.published,
             published_at := match p.published_at with
                             | some t => some t
                             | none => some now }
  else p

/-- One publish cycle (`Database.processScheduled`, store.ts 508-531): map
every lesson through `lessonStep`; when at least one lesson was updated, run
the cascade over every program against the already-updated lesson list. -/
def processScheduled (now : Int) (s : Store) : Store :=
  let lessons' := s.lessons.map (lessonStep now)
  let updatedCount := (s.lessons.filter (lessonDue now)).length
  if updatedCount > 0 then
    { s with lessons := lessons',
             programs := s.programs.map (programStep s.terms lessons' now) }
  else
    { s with lessons := lessons' }

/-! ## The pg-backed background worker (`src/unnamed/part_001`, lines 79-142) -/

/-- The bulk statement `UPDATE lessons SET status='published',
published_at=clock_timestamp(), updated_at=clock_timestamp() WHERE
status='scheduled' AND publish_at IS NOT NULL AND publish_at <= clock_timestamp()`. -/
def pgPublishDueLessons (now : Int) (lessons : List Lesson) : List Lesson :=
  lessons.map (fun l =>
    if lessonDue now l then
      { l with status := Status.published, published_at := some now, updated_at := now }
    else l)

/-- The rows returned by the bulk update's `RETURNING id, title, term_id`:
the lessons that satisfied the `WHERE` clause. -/
def pgDueRows (now : Int) (lessons : List Lesson) : List Lesson :=
  lessons.filter (lessonDue now)

/-- One iteration of the cascade loop (part_001 lines 111-128): join the due
lesson's term to its program; if that program is not already `published`,
update it to `published` with `published_at = COALESCE(published_at, now)`. -/
def pgCascadeLesson (now : Int) (terms : List Term) (programs : List Program)
    (termId : String) : List Program :=
  match terms.find? (fun t => t.id == termId) with
  | none => programs
  | some t =>
    match programs.find? (fun p => p.id == t.program_id) with
    | none => programs
    | some prog =>
      if prog.status == Status.published then programs
      else
        programs.map (fun p =>
          if p.id == prog.id then
            { p with status := Status.published,
                     published_at := match p.published_at with
                                     | some u => some u
                                     | none => some now,
                     updated_at := now }
          else p)

/-- The `for (const lesson of dueLessons)` cascade loop. -/
def pgCascadeAll (now : Int) (terms : List Term) (due : List Lesson)
    (programs : List Program) : List Program :=
  due.foldl (fun progs l => pgCascadeLesson now terms progs l.term_id) programs

/-- Result of one invocation of the worker: the durable store after the
invocation, the value of the `workerRunning` flag after the invocation, and
whether an exception escaped the worker function. -/
structure WorkerOutcome where
  store : Store
  workerRunning : Bool
  threw : Bool
deriving DecidableEq, Repr

/-- The worker body `runWorker` (part_001 lines 80-142). `workerRunning` is the module-level
mutual-exclusion flag as seen at the start of the invocation; an invocation
that finds it set returns at once without touching the store. Otherwise the
cycle runs inside `BEGIN`/`COMMIT`: the transactional working state becomes
the durable store only on commit. `cascadeFails` injects a failure raised by
the cascade step (which only runs when some lessons were due); the `catch`
block then issues `ROLLBACK`, discarding the working state, and does not
rethrow; the `finally` block clears the flag on every path. -/
def runWorker (workerRunning : Bool) (cascadeFails : Bool) (now : Int) (s : Store) :
    WorkerOutcome :=
  if workerRunning then
    { store := s, workerRunning := workerRunning, threw := false }
  else
    let lessons' := pgPublishDueLessons now s.lessons
    let due := pgDueRows now s.lessons
    let committed : Option Store :=
      if due.length > 0 then
        if cascadeFails then none
        else some { s with lessons := lessons',
                           programs := pgCascadeAll now s.terms due s.programs }
      else some { s with lessons := lessons' }
    match committed with
    | some w => { store := w, workerRunning := false, threw := false }
    | none => { store := s, workerRunning := false, threw := false }

/-! ## The background worker of `src/server.js` (lines 79-120) -/

/-- One iteration of the cascade loop of `src/server.js` (lines 93-110): join
the due lesson's term to its program, then issue `UPDATE programs SET
status='published', published_at=COALESCE(published_at, NOW()),
updated_at=NOW() WHERE id = $1 AND status != 'published'` (the
not-already-published check sits in the SQL `WHERE`, where part_001 checks
it in JS before issuing the update). -/
def serverCascadeLesson (now : Int) (terms : List Term) (programs : List Program)
    (termId : String) : List Program :=
  match terms.find? (fun t => t.id == termId) with
  | none => programs
  | some t =>
    match programs.find? (fun p => p.id == t.program_id) with
    | none => programs
    | some prog =>
      programs.map (fun p =>
        if p.id == prog.id && !(p.status == Status.published) then
          { p with status := Status.published,
                   published_at := match p.published_at with
                                   | some u => some u
                                   | none => some now,
                   updated_at := now }
        else p)

/-- The background worker of `src/server.js` (`runWorker`, lines 79-120).
Unlike part_001 there is no `workerRunning` flag anywhere in this file: the
function never consults whether a previous cycle is still running, so the
`previousRunning` argument (the ambient fact that another cycle is running)
is accepted and ignored, exactly as in the source. The bulk update's `WHERE
status = 'scheduled' AND publish_at <= NOW()` rejects a `NULL publish_at`
under SQL three-valued logic, which is the `lessonDue` predicate; the
cascade loop then runs over the returned due rows, and the transaction
commits. -/
def serverRunWorker (_previousRunning : Bool) (now : Int) (s : Store) : Store :=
  let lessons' := pgPublishDueLessons now s.lessons
  let due := pgDueRows now s.lessons
  if due.length > 0 then
    { s with lessons := lessons',
             programs := due.foldl
               (fun progs l => serverCascadeLesson now s.terms progs l.term_id)
               s.programs }
  else
    { s with lessons := lessons' }

/-! ## The public catalog endpoint (`src/server.js`, lines 127-189) -/

/-- The `EXISTS (SELECT 1 FROM terms t JOIN lessons l ON l.term_id = t.id
WHERE t.program_id = p.id AND l.status = 'published')` subquery. -/
def catalogHasPublishedLesson (terms : List Term) (lessons : List Lesson) (p : Program) : Bool :=
  terms.any (fun t => t.program_id == p.id &&
    lessons.any (fun l => l.term_id == t.id && l.status == Status.published))

/-- The full `WHERE` clause of the catalog query: `p.status = 'published'`,
the published-lesson `EXISTS` subquery, and the optional
`p.topic_ids @> jsonb_build_array(topic)` filter. -/
def catalogWhere (terms : List Term) (lessons : List Lesson) (topic : Option String)
    (p : Program) : Bool :=
  p.status == Status.published && catalogHasPublishedLesson terms lessons p &&
    (match topic with
     | some tp => p.topic_ids.contains tp
     | none => true)

/-- The result set of the catalog's `WHERE` clause over the program table.
With `topic = none` it is also the set counted by the endpoint's count query,
whose SQL carries only the `status = 'published'` and `EXISTS` clauses. -/
def catalogMatches (s : Store) (topic : Option String) : List Program :=
  s.programs.filter (catalogWhere s.terms s.lessons topic)

/-- The `ORDER BY` key `COALESCE(p.published_at, p.created_at)`. -/
def catalogSortKey (p : Program) : Int :=
  match p.published_at with
  | some t => t
  | none => p.created_at

/-- The JSON page returned by `GET /catalog/programs`. -/
structure CatalogPage where
  data : List Program
  next_cursor : Option Nat
  total : Nat
deriving DecidableEq, Repr

/-- The endpoint `GET /catalog/programs`: clamp the limit to 50, apply the `WHERE`
clause, `ORDER BY COALESCE(published_at, created_at) DESC`, then
`LIMIT`/`OFFSET` pagination; `next_cursor` is `offset + limit` when the page
is full and null otherwise. `total` comes from the separate `countSql` query
(server.js 170-175), which is built without the topic condition and executed
with no parameters, so it counts the published-with-published-lesson set
regardless of the `topic` argument — hence `catalogMatches s none`. -/
def listPublishedCatalog (s : Store) (cursor : Nat) (limit : Nat) (topic : Option String) :
    CatalogPage :=
  let lim := min limit 50
  let ordered := (catalogMatches s topic).mergeSort
    (fun a b => decide (catalogSortKey b ≤ catalogSortKey a))
  let page := (ordered.drop cursor).take lim
  { data := page,
    next_cursor := if page.length == lim then some (cursor + lim) else none,
    total := (catalogMatches s none).length }

/-! ## Asset upsert (`src/store.ts`, lines 493-506) -/

/-- The findIndex predicate of `upsertAsset`: equality of the four key
fields `(parent_id, language, variant, asset_type)`. -/
def assetKeyMatches (a : Asset) (b : Asset) : Bool :=
  a.parent_id == b.parent_id && a.language == b.language &&
    a.variant == b.variant && a.asset_type == b.asset_type

/-- The method `Database.upsertAsset` (store.ts 493-506): find the first row whose four
key fields match; if found, replace that row with the incoming asset while
keeping the stored id; otherwise push the incoming asset with a fresh id.
The source's findIndex / in-place replace / push is rendered as structural
recursion over the asset array. -/
def upsertAsset (assets : List Asset) (asset : Asset) (newId : String) : List Asset :=
  match assets with
  | [] => [{ asset with id := newId }]
  | a :: rest =>
    if assetKeyMatches a asset then { asset with id := a.id } :: rest
    else a :: upsertAsset rest asset newId

/-! ## Editor-driven lesson update (`src/unnamed/part_002`, lines 328-345) -/

/-- The check `checkTermLessonUnique` (part_002 lines 192-195): true when another
lesson with the same `(term_id, lesson_number)` already exists. -/
def checkTermLessonUnique (lessons : List Lesson) (termId : String) (lessonNumber : Nat)
    (lessonId : String) : Bool :=
  lessons.any (fun l => l.term_id == termId && l.lesson_number == lessonNumber &&
    !(l.id == lessonId))

/-- The method `updateProgram` (part_002 lines 271-281): ensure `language_primary` is in
`languages_available`, then replace the row with a matching id. -/
def updateProgram (s : Store) (now : Int) (program : Program) : Store :=
  let program :=
    if program.languages_available.contains program.language_primary then program
    else { program with
           languages_available := program.languages_available ++ [program.language_primary] }
  match s.programs.findIdx? (fun p => p.id == program.id) with
  | some i => { s with programs := s.programs.set i { program with updated_at := now } }
  | none => s

/-- The method `autoPublishProgram` (part_002 lines 403-421): look up the term and its
program; if some lesson of the program is `published` and the program is not,
publish the program, keeping an existing `published_at`. -/
def autoPublishProgram (s : Store) (now : Int) (termId : String) : Store :=
  match s.terms.find? (fun t => t.id == termId) with
  | none => s
  | some term =>
    match s.programs.find? (fun p => p.id == term.program_id) with
    | none => s
    | some program =>
      let programTerms := (s.terms.filter (fun t => t.program_id == term.program_id)).map
        (fun t => t.id)
      let hasPublishedLesson := s.lessons.any (fun l =>
        programTerms.contains l.term_id && l.status == Status.published)
      if hasPublishedLesson && !(program.status == Status.published) then
        updateProgram s now
          { program with
            status := Status.published,
            published_at := match program.published_at with
                            | some u => some u
                            | none => some now }
      else s

/-- The method `updateLesson` (part_002 lines 328-345). The two `throw new Error(...)`
sites become `Except.error`; both run before any store mutation. On success
the lesson row is replaced (with `updated_at` stamped), `autoPublishProgram`
runs, and the new store is returned. -/
def updateLesson (s : Store) (now : Int) (lesson : Lesson) : Except String Store :=
  if checkTermLessonUnique s.lessons lesson.term_id lesson.lesson_number lesson.id then
    Except.error "Lesson number already exists in this term."
  else if lesson.status == Status.scheduled && lesson.publish_at.isNone then
    Except.error "Scheduled lessons must have a release timestamp."
  else
    let lesson :=
      if lesson.status == Status.published && lesson.published_at.isNone then
        { lesson with published_at := some now }
      else lesson
    match s.lessons.findIdx? (fun l => l.id == lesson.id) with
    | some i =>
        let s' := { s with lessons := s.lessons.set i { lesson with updated_at := now } }
        Except.ok (autoPublishProgram s' now lesson.term_id)
    | none => Except.ok s

/-- The store visible to a caller of `updateLesson`: on a thrown error the
store is whatever it was before the call. -/
def applyUpdateLesson (s : Store) (now : Int) (lesson : Lesson) : Store :=
  match updateLesson s now lesson with
  | Except.ok s2 => s2
  | Except.error _ => s

/-! ## Helper lemmas -/

instance : LawfulBEq Status where
  eq_of_beq := by
    intro a b h
    cases a <;> cases b <;> first | rfl | exact absurd h (by decide)
  rfl := by intro a; cases a <;> rfl

theorem map_eq_self_of_forall {α : Type} (f : α → α) (l : List α)
    (h : ∀ a ∈ l, f a = a) : l.map f = l := by
  induction l with
  | nil => rfl
  | cons a t ih => simp_all

/-- Both branches of `processScheduled` store the mapped lesson array. -/
theorem processScheduled_lessons (now : Int) (s : Store) :
    (processScheduled now s).lessons = s.lessons.map (lessonStep now) := by
  by_cases hd : (s.lessons.filter (lessonDue now)).length > 0
  · simp [processScheduled, hd]
  · simp [processScheduled, hd]

/-- The program array after a cycle: either the cascade ran over every
program, or no lesson was due and the programs are untouched. -/
theorem processScheduled_programs (now : Int) (s : Store) :
    (processScheduled now s).programs =
        s.programs.map (programStep s.terms (s.lessons.map (lessonStep now)) now)
      ∨ ((processScheduled now s).programs = s.programs
          ∧ (s.lessons.filter (lessonDue now)).length = 0) := by
  by_cases hd : (s.lessons.filter (lessonDue now)).length > 0
  · left
    simp [processScheduled, hd]
  · right
    refine ⟨by simp [processScheduled, hd], by omega⟩

/-- A lesson that went through `lessonStep` is never due again. -/
theorem lessonDue_lessonStep (now : Int) (l : Lesson) :
    lessonDue now (lessonStep now l) = false := by
  by_cases h : lessonDue now l
  · have hstep : lessonStep now l =
        { l with status := Status.published, published_at := some now } := by
      simp [lessonStep, h]
    rw [hstep]
    rfl
  · have hstep : lessonStep now l = l := by simp [lessonStep, h]
    rw [hstep]
    simpa using h

theorem lessonStep_not_due (now : Int) (l : Lesson) (h : lessonDue now l = false) :
    lessonStep now l = l := by
  simp [lessonStep, h]

/-! ## C1: cutoff correctness of the publish cycle -/

/-- Claim C1: for every lesson with status `scheduled` and `publish_at = T`,
one publish cycle run at reference time `now` transitions that lesson to
`published` when `now ≥ T` and leaves it unchanged when `now < T`; a
scheduled lesson with a null `publish_at` is never touched by the cycle.
The first conjunct ties the per-lesson step to `processScheduled`: the
cycle's lesson array is exactly the pointwise image under `lessonStep`. -/
theorem processScheduled_cutoff (s : Store) (now T : Int) (l : Lesson)
    (hs : l.status = Status.scheduled) :
    (processScheduled now s).lessons = s.lessons.map (lessonStep now)
  ∧ (l.publish_at = some T → T ≤ now → (lessonStep now l).status = Status.published)
  ∧ (l.publish_at = some T → now < T → lessonStep now l = l)
  ∧ (l.publish_at = none → lessonStep now l = l) := by
  refine ⟨processScheduled_lessons now s, ?_, ?_, ?_⟩
  · intro hp hle
    have hdue : lessonDue now l = true := by
      simp [lessonDue, hs, hp, hle]
    simp [lessonStep, hdue]
  · intro hp hlt
    have hdue : lessonDue now l = false := by
      simp [lessonDue, hs, hp]
      omega
    simp [lessonStep, hdue]
  · intro hp
    have hdue : lessonDue now l = false := by
      simp [lessonDue, hs, hp]
    simp [lessonStep, hdue]

/-- A scheduled lesson due at instant 0, observed at `now = 10`. -/
def wDueLesson : Lesson :=
  { id := "l-due", term_id := "t1", lesson_number := 1, title := "due",
    status := Status.scheduled, publish_at := some 0, published_at := none,
    updated_at := 0 }

/-- A scheduled lesson due at instant 20, observed at `now = 10`. -/
def wEarlyLesson : Lesson :=
  { id := "l-early", term_id := "t1", lesson_number := 2, title := "early",
    status := Status.scheduled, publish_at := some 20, published_at := none,
    updated_at := 0 }

/-- A scheduled lesson with no `publish_at`. -/
def wNullLesson : Lesson :=
  { id := "l-null", term_id := "t1", lesson_number := 3, title := "null",
    status := Status.scheduled, publish_at := none, published_at := none,
    updated_at := 0 }

/-- A store holding the three witness lessons. -/
def wCutoffStore : Store :=
  { programs := [], terms := [], lessons := [wDueLesson, wEarlyLesson, wNullLesson],
    assets := [] }

/-- Witness for C1: at `now = 10` the due lesson is published, the one due at
20 is untouched, the one with no `publish_at` is untouched. -/
theorem processScheduled_cutoff_witness :
    (lessonStep 10 wDueLesson).status = Status.published
  ∧ lessonStep 10 wEarlyLesson = wEarlyLesson
  ∧ lessonStep 10 wNullLesson = wNullLesson :=
  ⟨(processScheduled_cutoff wCutoffStore 10 0 wDueLesson rfl).2.1 rfl (by decide),
   (processScheduled_cutoff wCutoffStore 10 20 wEarlyLesson rfl).2.2.1 rfl (by decide),
   (processScheduled_cutoff wCutoffStore 10 0 wNullLesson rfl).2.2.2 rfl⟩

/-! ## C6: idempotence of the publish cycle -/

/-- Claim C6: running the publish cycle twice at the same fixed `now`, with
no writes in between, produces the very same store the second time: every
field of every lesson and program (and everything else in the store) is
identical before and after the second run. -/
theorem processScheduled_idempotent (s : Store) (now : Int) :
    processScheduled now (processScheduled now s) = processScheduled now s := by
  have hdue : ∀ l ∈ (processScheduled now s).lessons, lessonDue now l = false := by
    intro l hl
    rw [processScheduled_lessons] at hl
    obtain ⟨a, _, rfl⟩ := List.mem_map.mp hl
    exact lessonDue_lessonStep now a
  have hfilter : (processScheduled now s).lessons.filter (lessonDue now) = [] :=
    List.filter_eq_nil_iff.mpr (by intro a ha; simp [hdue a ha])
  have hmap : (processScheduled now s).lessons.map (lessonStep now) =
      (processScheduled now s).lessons :=
    map_eq_self_of_forall _ _ (fun a ha => lessonStep_not_due now a (hdue a ha))
  conv_lhs => rw [processScheduled]
  simp [hfilter, hmap]

/-! ## C2: discipline of `published_at` writes -/

/-- A lesson that is `scheduled` and due, but whose `published_at` was
already set (to 5) by an earlier editor publication. -/
def exC2Lesson : Lesson :=
  { id := "l1", term_id := "t1", lesson_number := 1, title := "L1",
    status := Status.scheduled, publish_at := some 0, published_at := some 5,
    updated_at := 0 }

/-- Store for the C2 counterexample. -/
def exC2Store : Store :=
  { programs := [], terms := [], lessons := [exC2Lesson], assets := [] }

/-- Counterexample to C2 as stated: the cycle at `now = 10` rewrites the
lesson's already-set `published_at = 5` to `10` at the transition
(store.ts 514 assigns `published_at: new Date().toISOString()`
unconditionally), so `published_at` is not "set only if previously unset". -/
theorem processScheduled_overwrites_published_at :
    exC2Lesson.published_at = some 5
  ∧ ((processScheduled 10 exC2Store).lessons.map Lesson.published_at) = [some 10] := by
  constructor
  · rfl
  · decide

/-- Claim C2 (amended): at the transition of a due lesson the cycle sets
`published_at` to the cycle's `now` unconditionally — overwriting any
pre-existing value; a lesson that is not due (in particular one already
`published`) is left completely unchanged, so once a lesson is published no
subsequent cycle alters its `published_at`. A program's `published_at`
follows the claim as stated: the cascade sets it only when it was unset and
never overwrites it, and an already-published program is untouched. -/
theorem publishedAt_write_discipline (s : Store) (now : Int) (l : Lesson)
    (terms : List Term) (lessons : List Lesson) (p : Program) :
    ((processScheduled now s).lessons = s.lessons.map (lessonStep now)
  ∧ (lessonDue now l = true → (lessonStep now l).published_at = some now)
  ∧ (lessonDue now l = false → lessonStep now l = l)
  ∧ (l.status = Status.published → lessonStep now l = l))
  ∧ ((p.status = Status.published → programStep terms lessons now p = p)
  ∧ (∀ u : Int, p.published_at = some u →
      (programStep terms lessons now p).published_at = some u)
  ∧ (p.published_at = none → (programStep terms lessons now p).published_at = none
      ∨ (programStep terms lessons now p).published_at = some now)) := by
  refine ⟨⟨processScheduled_lessons now s, ?_, ?_, ?_⟩, ?_, ?_, ?_⟩
  · intro h
    simp [lessonStep, h]
  · intro h
    simp [lessonStep, h]
  · intro h
    have hdue : lessonDue now l = false := by simp [lessonDue, h]
    simp [lessonStep, hdue]
  · intro h
    simp [programStep, h]
  · intro u hu
    by_cases hc : programHasPublished terms lessons p && !(p.status == Status.published)
    · simp [programStep, hc, hu]
    · simp [programStep, hc, hu]
  · intro hu
    by_cases hc : programHasPublished terms lessons p && !(p.status == Status.published)
    · right
      simp [programStep, hc, hu]
    · left
      simp [programStep, hc, hu]

/-- A published lesson (for the C2 witness). -/
def wPublishedLesson : Lesson :=
  { id := "l-pub", term_id := "t1", lesson_number := 4, title := "pub",
    status := Status.published, publish_at := some 0, published_at := some 3,
    updated_at := 0 }

/-- A published program with `published_at = 7` (for the C2 witness). -/
def wPublishedProgram : Program :=
  { id := "p-pub", title := "P", language_primary := "en",
    languages_available := ["en"], status := Status.published, topic_ids := [],
    published_at := some 7, created_at := 0, updated_at := 0 }

/-- Witness for the amended C2, at `now = 10`: a due lesson gets
`published_at = 10`; an already-published lesson is untouched; an
already-published program keeps `published_at = 7` and is untouched. -/
theorem publishedAt_write_discipline_witness :
    (lessonStep 10 wDueLesson).published_at = some 10
  ∧ lessonStep 10 wPublishedLesson = wPublishedLesson
  ∧ programStep [] [] 10 wPublishedProgram = wPublishedProgram
  ∧ (programStep [] [] 10 wPublishedProgram).published_at = some 7 :=
  ⟨(publishedAt_write_discipline exC2Store 10 wDueLesson [] [] wPublishedProgram).1.2.1
     (by decide),
   (publishedAt_write_discipline exC2Store 10 wPublishedLesson [] [] wPublishedProgram).1.2.2.2
     rfl,
   (publishedAt_write_discipline exC2Store 10 wDueLesson [] [] wPublishedProgram).2.1 rfl,
   (publishedAt_write_discipline exC2Store 10 wDueLesson [] [] wPublishedProgram).2.2.1 7 rfl⟩

/-! ## C3: the cascade precondition is re-checked against the store -/

/-- Claim C3: a program is transitioned to `published` by the cascade only
when, at that point of the cycle (i.e. against the already-updated lesson
array), at least one lesson of one of its terms is `published`; a program
with no published lesson anywhere in its hierarchy is left untouched by the
cascade. The first conjunct ties `programStep` to `processScheduled`: the
cascade, when it runs, re-computes `programHasPublished` from the store's
terms and the updated lessons rather than trusting any caller-provided
list. -/
theorem cascade_precondition (s : Store) (now : Int) (terms : List Term)
    (lessons : List Lesson) (p : Program) :
    ((processScheduled now s).programs =
        s.programs.map (programStep s.terms (s.lessons.map (lessonStep now)) now)
      ∨ ((processScheduled now s).programs = s.programs
          ∧ (s.lessons.filter (lessonDue now)).length = 0))
  ∧ (programHasPublished terms lessons p = false → programStep terms lessons now p = p)
  ∧ ((programStep terms lessons now p).status = Status.published →
      p.status = Status.published ∨ programHasPublished terms lessons p = true) := by
  refine ⟨processScheduled_programs now s, ?_, ?_⟩
  · intro h
    simp [programStep, h]
  · intro h
    by_cases hc : programHasPublished terms lessons p && !(p.status == Status.published)
    · right
      exact (Bool.and_eq_true_iff.mp hc).1
    · left
      rw [programStep, if_neg hc] at h
      exact h

/-- A draft program with no lessons at all (for the C3 witness). -/
def wDraftProgram : Program :=
  { id := "p-draft", title := "D", language_primary := "en",
    languages_available := ["en"], status := Status.draft, topic_ids := [],
    published_at := none, created_at := 0, updated_at := 0 }

/-- Witness for C3: with an empty term/lesson hierarchy the cascade
precondition is false and the draft program is left untouched. -/
theorem cascade_precondition_witness :
    programHasPublished [] [] wDraftProgram = false
  ∧ programStep [] [] 10 wDraftProgram = wDraftProgram :=
  ⟨by decide,
   (cascade_precondition wCutoffStore 10 [] [] wDraftProgram).2.1 (by decide)⟩

/-! ## C5: treatment of archived entities by the worker -/

/-- An archived program (for the C5 counterexample). -/
def exC5Program : Program :=
  { id := "p1", title := "P", language_primary := "en",
    languages_available := ["en"], status := Status.archived, topic_ids := [],
    published_at := none, created_at := 0, updated_at := 0 }

/-- The archived program's sole term. -/
def exC5Term : Term :=
  { id := "t1", program_id := "p1", term_number := 1, title := "T" }

/-- A scheduled lesson under the archived program, due at instant 0. -/
def exC5Lesson : Lesson :=
  { id := "l2", term_id := "t1", lesson_number := 1, title := "L",
    status := Status.scheduled, publish_at := some 0, published_at := none,
    updated_at := 0 }

/-- Store for the C5 counterexample. -/
def exC5Store : Store :=
  { programs := [exC5Program], terms := [exC5Term], lessons := [exC5Lesson],
    assets := [] }

/-- Counterexample to C5 as stated: the cascade of the cycle at `now = 10`
transitions the archived program to `published`, because store.ts 523 only
skips programs whose status is already `published`
(`p.status !== Status.PUBLISHED`), not archived ones. -/
theorem cascade_publishes_archived_program :
    exC5Program.status = Status.archived
  ∧ ((processScheduled 10 exC5Store).programs.map Program.status)
      = [Status.published] := by
  constructor
  · rfl
  · decide

/-- Claim C5 (amended): the worker never selects an archived lesson for
publication (an archived lesson passes through the cycle unchanged), and an
archived program with no published lesson under its terms is untouched by
the cascade; but the cascade skips a program only when its status is already
`published`, so an archived program that does have a published lesson is
transitioned to `published` by the cascade. -/
theorem worker_archived_handling (now : Int) (l : Lesson) (terms : List Term)
    (lessons : List Lesson) (p : Program) :
    (l.status = Status.archived → lessonStep now l = l)
  ∧ (p.status = Status.archived → programHasPublished terms lessons p = false →
      programStep terms lessons now p = p)
  ∧ (p.status = Status.archived → programHasPublished terms lessons p = true →
      (programStep terms lessons now p).status = Status.published) := by
  refine ⟨?_, ?_, ?_⟩
  · intro h
    have hdue : lessonDue now l = false := by simp [lessonDue, h]
    simp [lessonStep, hdue]
  · intro _ h
    simp [programStep, h]
  · intro hp h
    simp [programStep, h, hp]

/-- An archived lesson (for the C5 witness). -/
def wArchivedLesson : Lesson :=
  { id := "l-arch", term_id := "t1", lesson_number := 9, title := "arch",
    status := Status.archived, publish_at := some 0, published_at := some 1,
    updated_at := 0 }

/-- Witness for the amended C5: an archived lesson is untouched at `now = 10`
even though its `publish_at` is in the past, and the archived program with no
published lesson is untouched by the cascade. -/
theorem worker_archived_handling_witness :
    lessonStep 10 wArchivedLesson = wArchivedLesson
  ∧ programStep [] [] 10 exC5Program = exC5Program :=
  ⟨(worker_archived_handling 10 wArchivedLesson [] [] exC5Program).1 rfl,
   (worker_archived_handling 10 wArchivedLesson [] [] exC5Program).2.1 rfl (by decide)⟩

/-! ## C4 and C7: the worker's transaction and mutual-exclusion guard -/

/-- When no lesson is due, the bulk update leaves the lesson array as is. -/
theorem pgPublishDueLessons_of_no_due (now : Int) (lessons : List Lesson)
    (h : pgDueRows now lessons = []) :
    pgPublishDueLessons now lessons = lessons := by
  have hall : ∀ l ∈ lessons, lessonDue now l = false := by
    intro l hl
    by_contra hcon
    have hmem : l ∈ pgDueRows now lessons :=
      List.mem_filter.mpr ⟨hl, by simpa using hcon⟩
    simp [h] at hmem
  refine map_eq_self_of_forall _ _ ?_
  intro l hl
  simp [hall l hl]

/-- Claim C4: if the cascade step raises inside a cycle that already updated
lessons, the whole transaction is rolled back — the durable store after the
cycle is exactly the store before it, none of the cycle's lesson updates
remain visible — and no exception escapes `runWorker`, whether or not the
cascade fails. -/
theorem runWorker_rollback (s : Store) (now : Int) :
    (runWorker false true now s).store = s
  ∧ (runWorker false true now s).threw = false
  ∧ (∀ f : Bool, (runWorker false f now s).threw = false) := by
  refine ⟨?_, ?_, ?_⟩
  · by_cases hd : (pgDueRows now s.lessons).length > 0
    · simp [runWorker, hd]
    · have hlen : (pgDueRows now s.lessons).length = 0 := by omega
      have hnil : pgDueRows now s.lessons = [] := List.length_eq_zero.mp hlen
      simp [runWorker, hd, pgPublishDueLessons_of_no_due now s.lessons hnil]
  · by_cases hd : (pgDueRows now s.lessons).length > 0
    · simp [runWorker, hd]
    · simp [runWorker, hd]
  · intro f
    by_cases hd : (pgDueRows now s.lessons).length > 0
    · cases f <;> simp [runWorker, hd]
    · simp [runWorker, hd]

/-- A due scheduled lesson for the C7 counterexample. -/
def exC7Lesson : Lesson :=
  { id := "l7", term_id := "t7", lesson_number := 1, title := "L7",
    status := Status.scheduled, publish_at := some 0, published_at := none,
    updated_at := 0 }

/-- Store for the C7 counterexample. -/
def exC7Store : Store :=
  { programs := [], terms := [], lessons := [exC7Lesson], assets := [] }

/-- Counterexample to C7 as stated: the cited `runWorker` of `src/server.js`
(lines 79-120) has no `workerRunning` guard at all, so an invocation made
while a previous cycle is still running does not return immediately as a
no-op: at `now = 10` it publishes the due lesson — a store write — and
behaves exactly like an invocation made while nothing is running. -/
theorem serverRunWorker_not_skipped :
    serverRunWorker true 10 exC7Store ≠ exC7Store
  ∧ serverRunWorker true 10 exC7Store = serverRunWorker false 10 exC7Store := by
  constructor
  · decide
  · rfl

/-- Claim C7 (amended): in the part_001 worker, an invocation of `runWorker`
that finds the `workerRunning` flag already set returns immediately as a
no-op — the store is untouched and nothing is thrown — and an invocation
that does take the flag leaves it cleared when it ends, whether the cycle
commits or fails; but the `runWorker` of `src/server.js` has no
mutual-exclusion guard at all, so its behaviour is the same whether or not a
previous cycle is still running — a second concurrent invocation runs a full
overlapping cycle instead of skipping. -/
theorem runWorker_guard (s : Store) (now : Int) (f : Bool) :
    runWorker true f now s = { store := s, workerRunning := true, threw := false }
  ∧ (runWorker false f now s).workerRunning = false
  ∧ serverRunWorker true now s = serverRunWorker false now s := by
  refine ⟨rfl, ?_, rfl⟩
  by_cases hd : (pgDueRows now s.lessons).length > 0
  · cases f <;> simp [runWorker, hd]
  · simp [runWorker, hd]

/-! ## C8: the public catalog is a read-time filter -/

/-- Claim C8: `GET /catalog/programs` lists exactly the programs whose stored
status is `published` and which own, via some term, at least one lesson with
status `published`; a program marked `published` with no currently-published
lesson is excluded — for every store state. The `total` of every returned
page counts the published-with-published-lesson set (the count query ignores
the topic parameter), and every program appearing on any page satisfies the
full `WHERE` clause, topic filter included. -/
theorem listPublishedCatalog_spec (s : Store) (p : Program) :
    (p ∈ catalogMatches s none ↔
      p ∈ s.programs ∧ p.status = Status.published ∧
        ∃ t ∈ s.terms, t.program_id = p.id ∧
          ∃ l ∈ s.lessons, l.term_id = t.id ∧ l.status = Status.published)
  ∧ (∀ cursor limit : Nat, ∀ topic : Option String,
      (listPublishedCatalog s cursor limit topic).total = (catalogMatches s none).length)
  ∧ (∀ cursor limit : Nat, ∀ topic : Option String, ∀ q : Program,
      q ∈ (listPublishedCatalog s cursor limit topic).data → q ∈ catalogMatches s topic) := by
  refine ⟨?_, ?_, ?_⟩
  · constructor
    · intro h
      have hm := List.mem_filter.mp h
      refine ⟨hm.1, ?_⟩
      have hw := hm.2
      simp only [catalogWhere, catalogHasPublishedLesson, Bool.and_eq_true,
        List.any_eq_true, Status.beq_iff, beq_iff_eq] at hw
      obtain ⟨⟨hst, t, ht, htp, l, hl, hlt, hls⟩, _⟩ := hw
      exact ⟨hst, t, ht, htp, l, hl, hlt, hls⟩
    · intro ⟨hp, hst, t, ht, htp, l, hl, hlt, hls⟩
      refine List.mem_filter.mpr ⟨hp, ?_⟩
      simp only [catalogWhere, catalogHasPublishedLesson, Bool.and_eq_true,
        List.any_eq_true, Status.beq_iff, beq_iff_eq]
      exact ⟨⟨hst, t, ht, htp, l, hl, hlt, hls⟩, trivial⟩
  · intro cursor limit topic
    rfl
  · intro cursor limit topic q hq
    have h1 : q ∈ ((catalogMatches s topic).mergeSort
        (fun a b => decide (catalogSortKey b ≤ catalogSortKey a))).drop cursor := by
      have := hq
      simp only [listPublishedCatalog] at this
      exact List.mem_of_mem_take this
    have h2 : q ∈ (catalogMatches s topic).mergeSort
        (fun a b => decide (catalogSortKey b ≤ catalogSortKey a)) :=
      List.mem_of_mem_drop h1
    exact (List.mergeSort_perm (catalogMatches s topic)
      (fun a b => decide (catalogSortKey b ≤ catalogSortKey a))).mem_iff.mp h2

/-- The published program of the C8 witness store. -/
def wCatProgram : Program :=
  { id := "p1", title := "P", language_primary := "en",
    languages_available := ["en"], status := Status.published, topic_ids := [],
    published_at := some 1, created_at := 0, updated_at := 0 }

/-- A program marked `published` but owning no published lesson: must be
excluded from the catalog. -/
def wCatEmptyProgram : Program :=
  { id := "p2", title := "Q", language_primary := "en",
    languages_available := ["en"], status := Status.published, topic_ids := [],
    published_at := some 1, created_at := 0, updated_at := 0 }

/-- Witness store for C8: `p1` has a published lesson via term `t1`; `p2`
has a term but no published lesson. -/
def wCatStore : Store :=
  { programs := [wCatProgram, wCatEmptyProgram],
    terms := [{ id := "t1", program_id := "p1", term_number := 1, title := "T" },
              { id := "t2", program_id := "p2", term_number := 1, title := "U" }],
    lessons := [{ id := "l1", term_id := "t1", lesson_number := 1, title := "L",
                  status := Status.published, publish_at := some 0,
                  published_at := some 1, updated_at := 0 },
                { id := "l2", term_id := "t2", lesson_number := 1, title := "M",
                  status := Status.archived, publish_at := some 0,
                  published_at := some 1, updated_at := 0 }],
    assets := [] }

/-- Witness for C8: a program returned on the first page of the witness
store's catalog is in the filtered set, the published program with a
published lesson is listed, and the published program without one is not. -/
theorem listPublishedCatalog_spec_witness :
    wCatProgram ∈ catalogMatches wCatStore none
  ∧ ¬ (wCatEmptyProgram ∈ catalogMatches wCatStore none)
  ∧ (listPublishedCatalog wCatStore 0 10 none).total = 1 :=
  ⟨(listPublishedCatalog_spec wCatStore wCatProgram).1.mpr
     ⟨by decide, rfl,
      { id := "t1", program_id := "p1", term_number := 1, title := "T" },
      by decide, rfl,
      { id := "l1", term_id := "t1", lesson_number := 1, title := "L",
        status := Status.published, publish_at := some 0,
        published_at := some 1, updated_at := 0 },
      by decide, rfl, rfl⟩,
   fun h => by
     have := ((listPublishedCatalog_spec wCatStore wCatEmptyProgram).1.mp h).2.2
     revert this
     decide,
   by
     have := (listPublishedCatalog_spec wCatStore wCatProgram).2.1 0 10 none
     simpa using this⟩

/-! ## C9: upsert preserves uniqueness of the asset key -/

/-- The four-field key `(parent_id, language, variant, asset_type)` declared
`UNIQUE` in the schema and probed by the store's findIndex. -/
def assetKey (a : Asset) : String × String × String × String :=
  (a.parent_id, a.language, a.variant, a.asset_type)

theorem assetKeyMatches_iff (a b : Asset) :
    assetKeyMatches a b = true ↔ assetKey a = assetKey b := by
  simp [assetKeyMatches, assetKey, Prod.ext_iff, and_assoc]

theorem assetKeyMatches_false_iff (a b : Asset) :
    assetKeyMatches a b = false ↔ assetKey a ≠ assetKey b := by
  constructor
  · intro h hk
    rw [(assetKeyMatches_iff a b).mpr hk] at h
    simp at h
  · intro h
    cases hm : assetKeyMatches a b
    · rfl
    · exact absurd ((assetKeyMatches_iff a b).mp hm) h

theorem assetKey_withId (x : Asset) (i : String) :
    assetKey { x with id := i } = assetKey x := rfl

/-- No two rows of the asset table share the four-field key. -/
def AssetKeyUnique (assets : List Asset) : Prop :=
  assets.Pairwise (fun a b => assetKeyMatches a b = false)

/-- Every row produced by `upsertAsset` is either an original row or carries
the incoming asset's key. -/
theorem mem_upsertAsset (assets : List Asset) (x : Asset) (nid : String) (b : Asset)
    (hb : b ∈ upsertAsset assets x nid) :
    b ∈ assets ∨ assetKey b = assetKey x := by
  induction assets with
  | nil =>
    simp [upsertAsset] at hb
    right
    rw [hb]
    rfl
  | cons a rest ih =>
    rw [upsertAsset] at hb
    by_cases hm : assetKeyMatches a x
    · rw [if_pos hm] at hb
      rcases List.mem_cons.mp hb with h1 | h2
      · right
        rw [h1]
        rfl
      · left
        exact List.mem_cons_of_mem a h2
    · rw [if_neg hm] at hb
      rcases List.mem_cons.mp hb with h1 | h2
      · left
        rw [h1]
        exact List.mem_cons_self a rest
      · rcases ih h2 with h3 | h3
        · left
          exact List.mem_cons_of_mem a h3
        · right
          exact h3

/-- When no stored row matches the incoming key, upsert appends exactly one
new row at the end. -/
theorem upsertAsset_no_match (assets : List Asset) (x : Asset) (nid : String)
    (h : assets.any (fun a => assetKeyMatches a x) = false) :
    upsertAsset assets x nid = assets ++ [{ x with id := nid }] := by
  induction assets with
  | nil => rfl
  | cons a rest ih =>
    rw [List.any_cons, Bool.or_eq_false_iff] at h
    obtain ⟨h1, h2⟩ := h
    rw [upsertAsset, if_neg (by simp [h1]), ih h2]
    rfl

/-- When some stored row matches the incoming key, upsert adds no row. -/
theorem upsertAsset_match_length (assets : List Asset) (x : Asset) (nid : String)
    (h : assets.any (fun a => assetKeyMatches a x) = true) :
    (upsertAsset assets x nid).length = assets.length := by
  induction assets with
  | nil => simp at h
  | cons a rest ih =>
    cases hmb : assetKeyMatches a x with
    | true =>
      rw [upsertAsset, if_pos hmb]
      simp
    | false =>
      rw [List.any_cons, hmb, Bool.false_or] at h
      rw [upsertAsset, if_neg (by simp [hmb])]
      simp [ih h]

/-- In the replace case, under key uniqueness: the row carrying the incoming
key now holds the incoming URL, and every other row is an original row. -/
theorem upsertAsset_match_rows (assets : List Asset) (x : Asset) (nid : String)
    (hu : AssetKeyUnique assets) (b : Asset) (hb : b ∈ upsertAsset assets x nid)
    (h : assets.any (fun a => assetKeyMatches a x) = true) :
    (assetKeyMatches b x = true → b.url = x.url)
  ∧ (assetKeyMatches b x = false → b ∈ assets) := by
  induction assets with
  | nil => simp at h
  | cons a rest ih =>
    unfold AssetKeyUnique at hu
    rw [List.pairwise_cons] at hu
    obtain ⟨ha, hrest⟩ := hu
    cases hmb : assetKeyMatches a x with
    | true =>
      rw [upsertAsset, if_pos hmb] at hb
      rcases List.mem_cons.mp hb with h1 | h2
      · constructor
        · intro _
          rw [h1]
        · intro hfalse
          rw [h1] at hfalse
          rw [assetKeyMatches_false_iff, assetKey_withId] at hfalse
          exact absurd rfl hfalse
      · constructor
        · intro htrue
          have hka : assetKey a = assetKey x := (assetKeyMatches_iff a x).mp hmb
          have hkb : assetKey b = assetKey x := (assetKeyMatches_iff b x).mp htrue
          have hab : assetKey a ≠ assetKey b :=
            (assetKeyMatches_false_iff a b).mp (ha b h2)
          exact absurd (hka.trans hkb.symm) hab
        · intro _
          exact List.mem_cons_of_mem a h2
    | false =>
      rw [List.any_cons, hmb, Bool.false_or] at h
      rw [upsertAsset, if_neg (by simp [hmb])] at hb
      rcases List.mem_cons.mp hb with h1 | h2
      · constructor
        · intro htrue
          rw [h1] at htrue
          rw [htrue] at hmb
          exact absurd hmb (by simp)
        · intro _
          rw [h1]
          exact List.mem_cons_self a rest
      · have hres := ih hrest h2 h
        exact ⟨hres.1, fun hf => List.mem_cons_of_mem a (hres.2 hf)⟩

/-- Upsert preserves key uniqueness. -/
theorem upsertAsset_pairwise (assets : List Asset) (x : Asset) (nid : String)
    (hu : AssetKeyUnique assets) : AssetKeyUnique (upsertAsset assets x nid) := by
  induction assets with
  | nil =>
    unfold AssetKeyUnique
    simp [upsertAsset]
  | cons a rest ih =>
    unfold AssetKeyUnique at hu ⊢
    rw [List.pairwise_cons] at hu
    obtain ⟨ha, hrest⟩ := hu
    cases hmb : assetKeyMatches a x with
    | true =>
      rw [upsertAsset, if_pos hmb, List.pairwise_cons]
      refine ⟨?_, hrest⟩
      intro b hb
      have hk : assetKey a = assetKey x := (assetKeyMatches_iff a x).mp hmb
      have hab : assetKey a ≠ assetKey b :=
        (assetKeyMatches_false_iff a b).mp (ha b hb)
      rw [assetKeyMatches_false_iff, assetKey_withId, ← hk]
      exact hab
    | false =>
      rw [upsertAsset, if_neg (by simp [hmb]), List.pairwise_cons]
      refine ⟨?_, ih hrest⟩
      intro b hb
      rcases mem_upsertAsset rest x nid b hb with h1 | h1
      · exact ha b h1
      · rw [assetKeyMatches_false_iff, h1]
        exact (assetKeyMatches_false_iff a x).mp hmb

/-- Claim C9: `upsertAsset` preserves uniqueness of the key
`(parent_id, language, variant, asset_type)`: for every store state in which
no two rows share the key, if a row with the incoming key exists the write
adds no row and afterwards the row carrying that key holds the incoming URL
while every other row is an original row; if no row matches, exactly one new
row is appended; and in both cases no two rows of the result share a key. -/
theorem upsertAsset_key_unique (assets : List Asset) (x : Asset) (nid : String)
    (hu : AssetKeyUnique assets) :
    AssetKeyUnique (upsertAsset assets x nid)
  ∧ (assets.any (fun a => assetKeyMatches a x) = true →
      ((upsertAsset assets x nid).length = assets.length
       ∧ ∀ b ∈ upsertAsset assets x nid,
           (assetKeyMatches b x = true → b.url = x.url)
         ∧ (assetKeyMatches b x = false → b ∈ assets)))
  ∧ (assets.any (fun a => assetKeyMatches a x) = false →
      upsertAsset assets x nid = assets ++ [{ x with id := nid }]) :=
  ⟨upsertAsset_pairwise assets x nid hu,
   fun h => ⟨upsertAsset_match_length assets x nid h,
             fun b hb => upsertAsset_match_rows assets x nid hu b hb h⟩,
   fun h => upsertAsset_no_match assets x nid h⟩

/-- A stored poster row. -/
def wAssetOld : Asset :=
  { id := "a1", parent_id := "p1", language := "en", variant := "portrait",
    asset_type := "poster", url := "old" }

/-- An incoming asset with the same key and a new URL. -/
def wAssetNew : Asset :=
  { id := "ignored", parent_id := "p1", language := "en", variant := "portrait",
    asset_type := "poster", url := "new" }

/-- Witness for C9: upserting over a one-row store with a matching key keeps
the table at one row with a unique key. -/
theorem upsertAsset_key_unique_witness :
    AssetKeyUnique (upsertAsset [wAssetOld] wAssetNew "fresh")
  ∧ (upsertAsset [wAssetOld] wAssetNew "fresh").length = 1 :=
  have h := upsertAsset_key_unique [wAssetOld] wAssetNew "fresh"
    (by unfold AssetKeyUnique; simp)
  ⟨h.1, (h.2.1 (by decide)).1⟩

/-! ## C10: updateLesson rejects a scheduled lesson without a release time -/

/-- Claim C10: `updateLesson` throws (both `throw` sites run before any store
mutation) and leaves the entire store unchanged whenever the lesson passed to
it has status `scheduled` and no `publish_at`; a scheduled lesson without a
release timestamp can never enter the store through this operation. -/
theorem updateLesson_rejects_scheduled_without_release (s : Store) (now : Int)
    (lesson : Lesson) (h1 : lesson.status = Status.scheduled)
    (h2 : lesson.publish_at = none) :
    (∃ e, updateLesson s now lesson = Except.error e)
  ∧ applyUpdateLesson s now lesson = s := by
  have herr : ∃ e, updateLesson s now lesson = Except.error e := by
    by_cases hc : checkTermLessonUnique s.lessons lesson.term_id lesson.lesson_number
        lesson.id
    · exact ⟨"Lesson number already exists in this term.", by
        rw [updateLesson, if_pos hc]⟩
    · refine ⟨"Scheduled lessons must have a release timestamp.", ?_⟩
      rw [updateLesson, if_neg hc, if_pos (by simp [h1, h2])]
  obtain ⟨e, he⟩ := herr
  exact ⟨⟨e, he⟩, by rw [applyUpdateLesson, he]⟩

/-- The C10 witness lesson: scheduled with no `publish_at`. -/
def wBadLesson : Lesson :=
  { id := "l-bad", term_id := "t1", lesson_number := 1, title := "bad",
    status := Status.scheduled, publish_at := none, published_at := none,
    updated_at := 0 }

/-- A store holding an unrelated lesson, to show it stays intact. -/
def wUpdStore : Store :=
  { programs := [], terms := [],
    lessons := [{ id := "l-ok", term_id := "t2", lesson_number := 1, title := "ok",
                  status := Status.draft, publish_at := none, published_at := none,
                  updated_at := 0 }],
    assets := [] }

/-- Witness for C10: the update of the bad lesson errors out and the store is
exactly what it was. -/
theorem updateLesson_rejects_witness :
    (∃ e, updateLesson wUpdStore 10 wBadLesson = Except.error e)
  ∧ applyUpdateLesson wUpdStore 10 wBadLesson = wUpdStore :=
  updateLesson_rejects_scheduled_without_release wUpdStore 10 wBadLesson rfl rfl
